import Mathlib

/-!
Verification of the `edx_lint` feature-toggle pylint plugin
(`edx_lint/pylint/feature_toggle_check.py`) against its natural-language
specification.  The Python source is shallowly embedded: AST nodes become
Lean structures carrying exactly the attributes the checkers read,
`re`-based line classification becomes a recursive function over character
lists, and `add_message` calls become elements of a returned message list
(in emission order).
-/

namespace EdxLint

/-- Characters matched by the regex class `\s` on the ASCII lines the
checker classifies (space, tab, newline, carriage return, vertical tab,
form feed). -/
def pySpace (c : Char) : Bool :=
  c = ' ' || c = '\t' || c = '\n' || c = '\r' || c = '\x0b' || c = '\x0c'

/-- Greedy consumption of a `[\s]*` regex atom: drop leading whitespace. -/
def dropSpaces : List Char → List Char
  | [] => []
  | c :: cs => if pySpace c then dropSpaces cs else c :: cs

/-- Python `str.strip()`: remove leading and trailing whitespace. -/
def pyStrip (s : String) : String :=
  ⟨((s.data.dropWhile pySpace).reverse.dropWhile pySpace).reverse⟩

/-- Python `needle in hay` for strings: substring containment. -/
def substrContains (hay needle : String) : Bool :=
  (List.range (hay.data.length + 1)).any
    (fun i => needle.data.isPrefixOf (hay.data.drop i))

/-- `_CHECK_CAPITAL_REGEX = re.compile(r"[A-Z]")` applied with `.match`:
true iff the first character is an ASCII capital letter. -/
def startsWithCapital (s : String) : Bool :=
  match s.data with
  | [] => false
  | c :: _ => 'A' ≤ c && c ≤ 'Z'

/-- Python `str.endswith(tuple)`: the string ends with one of the given
suffixes. -/
def endsWithAny (s : String) (suffixes : List String) : Bool :=
  suffixes.any (fun t => t.data.isSuffixOf s.data)

/-- `_WAFFLE_TOGGLE_CLASSES` from `FeatureToggleChecker`. -/
def waffleToggleClasses : List String :=
  ["WaffleFlag", "WaffleSwitch", "CourseWaffleFlag"]

/-- `_ILLEGAL_WAFFLE_FUNCTIONS` from `FeatureToggleChecker`. -/
def illegalWaffleFunctions : List String :=
  ["flag_is_active", "switch_is_active"]

/-- Tail of the annotation regex after the `#` atom:
`[\s]*\.\.[\s]*(toggle)`, applied to the remainder of the line with the
first `[\s]*` already consumed by the caller passing `dropSpaces`. -/
def matchTail2 (l : List Char) : Bool :=
  match l with
  | c1 :: c2 :: rest =>
    c1 = '.' && c2 = '.' && "toggle".data.isPrefixOf (dropSpaces rest)
  | _ => false

/-- The annotation regex after its leading `[\s]*`: a `#`, then the rest
of the pattern. -/
def matchTail1 (l : List Char) : Bool :=
  match l with
  | c :: rest => c = '#' && matchTail2 (dropSpaces rest)
  | [] => false

/-- `AnnotationLines._ANNOTATION_REGEX.match(line)` for the pattern
`[\s]*#[\s]*\.\.[\s]*(toggle)`: anchored at the start of the line,
optional whitespace, `#`, optional whitespace, `..`, optional whitespace,
then the literal `toggle`.  Each `[\s]*` is consumed greedily; since none
of `#`, `.`, `t` is whitespace, greedy consumption is equivalent to the
regex's backtracking search. -/
def annotRegexMatch (s : String) : Bool :=
  matchTail1 (dropSpaces s.data)

/-- The `AnnotationLines` class: a module's text held as the list produced
by `module_as_string.split("\n")` (the source's name ends in a token the
development cannot use in identifiers, hence the shortened name). -/
structure AnnotLines where
  lines : List String
deriving DecidableEq

/-- `AnnotationLines._line_count`. -/
def AnnotLines.lineCount (a : AnnotLines) : Nat :=
  a.lines.length

/-- `AnnotationLines._get_line_contents`: 1-indexed access; only invoked
in range, out-of-range modelled with the empty string. -/
def AnnotLines.getLineContents (a : AnnotLines) (lineNumber : Int) : String :=
  a.lines.getD (lineNumber - 1).toNat ""

/-- `AnnotationLines.is_line_annotated`. -/
def AnnotLines.isLineAnnotated (a : AnnotLines) (lineNumber : Int) : Bool :=
  if lineNumber < 1 || (a.lineCount : Int) < lineNumber then false
  else annotRegexMatch (a.getLineContents lineNumber)

/-- Building `AnnotationLines` from decoded module text:
`module_as_string.split("\n")`. -/
def AnnotLines.ofSource (text : String) : AnnotLines :=
  ⟨text.splitOn "\n"⟩

/-- Stable identifiers of the messages the two checkers can emit. -/
inductive MsgId
  | toggleMissingAnnot
  | illegalWaffle
  | incorrectName
  | emptyDescription
  | missingTargetRemovalDate
  | nonBooleanDefault
deriving DecidableEq

/-- One emitted `add_message` call: message id, `args` tuple, and the line
of the node the message is anchored to. -/
structure Msg where
  id : MsgId
  args : List String
  line : Int
deriving DecidableEq

/-- An astroid `Call` node as read by `FeatureToggleChecker`:
`node.func.name` when the callee is a simple name, `node.lineno`,
the `as_string()` renderings of the positional arguments, and the
keyword arguments as `(arg, value.value)` pairs (`arg` is `None` for a
`**kwargs` splat), with `keywords` itself possibly `None`. -/
structure CallNode where
  funcName : Option String
  lineno : Int
  args : List String
  keywords : Option (List (Option String × String))
deriving DecidableEq

/-- `FeatureToggleChecker.check_waffle_class_annotated`. -/
def checkWaffleClassAnnotated (lines : AnnotLines) (node : CallNode) :
    List Msg :=
  match node.funcName with
  | none => []
  | some fn =>
    if !startsWithCapital fn then []
    else if !endsWithAny fn waffleToggleClasses then []
    else if lines.isLineAnnotated (node.lineno - 1) then []
    else
      let n1 :=
        match node.keywords with
        | none => "UNKNOWN"
        | some kws =>
          kws.foldl
            (fun acc kw => if kw.1 = some "flag_name" then kw.2 else acc)
            "UNKNOWN"
      let n2 :=
        if n1 = "UNKNOWN" then
          if 2 ≤ node.args.length then node.args.getD 1 "UNKNOWN" else n1
        else n1
      [⟨MsgId.toggleMissingAnnot, [n2], node.lineno⟩]

/-- `FeatureToggleChecker.check_illegal_waffle_usage`. -/
def checkIllegalWaffleUsage (node : CallNode) : List Msg :=
  match node.funcName with
  | none => []
  | some fn =>
    if fn ∈ illegalWaffleFunctions then
      let n :=
        if 1 ≤ node.args.length then node.args.getD 0 "UNKNOWN"
        else "UNKNOWN"
      [⟨MsgId.illegalWaffle, [n], node.lineno⟩]
    else []

/-- One key of an astroid `Dict` node's `items`: the key's `lineno` and
its literal `value` (the checker only reads these two attributes). -/
structure DictKey where
  lineno : Int
  value : String
deriving DecidableEq

/-- An astroid `Dict` node as read by
`check_django_feature_flag_annotated`: `node.parent.targets[0].name`
(via `try/except AttributeError`, hence `Option`), the dict node's own
`lineno`, and its keys. -/
structure DictNode where
  parentTargetName : Option String
  lineno : Int
  items : List DictKey
deriving DecidableEq

/-- `FeatureToggleChecker.check_django_feature_flag_annotated`. -/
def checkDjangoFeatureFlagAnnotated (lines : AnnotLines) (node : DictNode) :
    List Msg :=
  match node.parentTargetName with
  | none => []
  | some target =>
    if target = "FEATURES" then
      node.items.filterMap (fun key =>
        if lines.isLineAnnotated (key.lineno - 1) then none
        else some ⟨MsgId.toggleMissingAnnot, [key.value], node.lineno⟩)
    else []

/-- One record of an annotation group as consumed by
`check_feature_toggles_annotation_group`: the record's
`annotation_token` and `annotation_data` strings. -/
structure AnnotRecord where
  token : String
  data : String
deriving DecidableEq

/-- The local state accumulated by the `for annotation in annotations`
loop of `check_feature_toggles_annotation_group`. -/
structure GroupState where
  targetRemovalDate : Option String
  temporaryUseCase : Bool
  toggleName : String
  toggleDescription : String
  toggleDefault : Option String
deriving DecidableEq

/-- The loop's initial state (`None`, `False`, `""`, `""`, `None`). -/
def initGroupState : GroupState :=
  ⟨none, false, "", "", none⟩

/-- One iteration of the `for annotation in annotations` loop. -/
def stepAnnot (st : GroupState) (a : AnnotRecord) : GroupState :=
  if a.token = ".. toggle_name:" then
    { st with toggleName := a.data }
  else if a.token = ".. toggle_description:" then
    { st with toggleDescription := pyStrip a.data }
  else if a.token = ".. toggle_use_cases:" then
    (if substrContains a.data "temporary" then
      { st with temporaryUseCase := true }
    else st)
  else if a.token = ".. toggle_target_removal_date:" then
    { st with targetRemovalDate := some a.data }
  else if a.token = ".. toggle_default:" then
    { st with toggleDefault := some a.data }
  else st

/-- Python truthiness of the `target_removal_date` variable (`None` or a
string): falsy when `None` or the empty string. -/
def optStrFalsy : Option String → Bool
  | none => true
  | some s => s = ""

/-- `FeatureToggleAnnotationChecker.check_feature_toggles_annotation_group`
(the checker class's name ends in a token this development cannot use in
identifiers).  `nodeLine` is the line of the module node passed to
`add_message`. -/
def checkFeatureTogglesAnnotGroup (annots : List AnnotRecord)
    (nodeLine : Int) : List Msg :=
  if annots = [] then []
  else
    let st := annots.foldl stepAnnot initGroupState
    (if st.toggleName = "" then
      [⟨MsgId.incorrectName, [], nodeLine⟩] else []) ++
    (if st.toggleDescription = "" then
      [⟨MsgId.emptyDescription, [st.toggleName], nodeLine⟩] else []) ++
    (if st.temporaryUseCase && optStrFalsy st.targetRemovalDate then
      [⟨MsgId.missingTargetRemovalDate, [st.toggleName], nodeLine⟩]
     else []) ++
    (if st.toggleDefault = some "True" || st.toggleDefault = some "False"
     then []
     else [⟨MsgId.nonBooleanDefault, [st.toggleName], nodeLine⟩])

/-! ## Spec-side definitions

These definitions follow the specification's words (not the source) and
are compared against the source-derived definitions above. -/

/-- Modelled from the spec: a line matches "optional whitespace, `#`,
optional whitespace, `..`, optional whitespace, the literal token
`toggle`" anchored at the start of the line. -/
def specAnnotPattern (s : String) : Prop :=
  ∃ w1 w2 w3 rest : List Char,
    (∀ c ∈ w1, pySpace c) ∧ (∀ c ∈ w2, pySpace c) ∧ (∀ c ∈ w3, pySpace c) ∧
    s.data = w1 ++ '#' :: (w2 ++ '.' :: '.' :: (w3 ++ ("toggle".data ++ rest)))

/-- The value of the (last) keyword argument named `flag_name`, when the
call has one. -/
def flagNameKw (node : CallNode) : Option String :=
  match node.keywords with
  | none => none
  | some kws =>
    kws.foldl
      (fun acc kw => if kw.1 = some "flag_name" then some kw.2 else acc)
      none

/-- Modelled from the spec: claim C1's stated priority order for the
reported toggle name — the `flag_name` keyword's value if present, else
the rendering of the second positional argument if there are at least two
positional arguments, else the sentinel `"UNKNOWN"`. -/
def specC1Name (node : CallNode) : String :=
  match flagNameKw node with
  | some v => v
  | none =>
    if 2 ≤ node.args.length then node.args.getD 1 "UNKNOWN" else "UNKNOWN"

/-- The name the source actually reports (amended claim C1): the
`flag_name` keyword's value is used only when it differs from the
sentinel `"UNKNOWN"`; a keyword value equal to `"UNKNOWN"` falls through
to the second positional argument exactly as if the keyword were
absent. -/
def amendedC1Name (node : CallNode) : String :=
  match flagNameKw node with
  | some v =>
    if v = "UNKNOWN" ∧ 2 ≤ node.args.length then node.args.getD 1 "UNKNOWN"
    else v
  | none =>
    if 2 ≤ node.args.length then node.args.getD 1 "UNKNOWN" else "UNKNOWN"

/-- The `annotation_data` of the last record of the group carrying the
given token, when one exists ("last write wins"). -/
def lastData : List AnnotRecord → String → Option String
  | [], _ => none
  | a :: g, tok =>
    match lastData g tok with
    | some d => some d
    | none => if a.token = tok then some a.data else none

/-- The four content checks evaluated from per-token summary values.
`temp` is the computed "temporary use case" flag, the other arguments are
the last-written raw values of the corresponding tokens. -/
def contentMsgs (name : String) (desc : String) (temp : Bool)
    (removal : Option String) (dflt : Option String) (nodeLine : Int) :
    List Msg :=
  (if name = "" then [⟨MsgId.incorrectName, [], nodeLine⟩] else []) ++
  (if desc = "" then [⟨MsgId.emptyDescription, [name], nodeLine⟩] else []) ++
  (if temp && optStrFalsy removal then
    [⟨MsgId.missingTargetRemovalDate, [name], nodeLine⟩] else []) ++
  (if dflt = some "True" || dflt = some "False" then []
   else [⟨MsgId.nonBooleanDefault, [name], nodeLine⟩])

/-- Modelled from the spec: claim C8's reading of the content check, in
which every content rule — including the temporary-use-case rule — reads
the value of the LAST occurrence of its token. -/
def lwwOutput (g : List AnnotRecord) (nodeLine : Int) : List Msg :=
  if g = [] then []
  else
    contentMsgs
      ((lastData g ".. toggle_name:").getD "")
      (((lastData g ".. toggle_description:").map pyStrip).getD "")
      (match lastData g ".. toggle_use_cases:" with
       | some d => substrContains d "temporary"
       | none => false)
      (lastData g ".. toggle_target_removal_date:")
      (lastData g ".. toggle_default:")
      nodeLine

/-- The content check's actual per-token semantics (amended claim C8):
`toggle_name`, `toggle_description`, `toggle_target_removal_date` and
`toggle_default` take the last occurrence's value, but the temporary
use-case flag is sticky — it is set as soon as ANY `toggle_use_cases`
occurrence contains the substring `"temporary"`. -/
def amendedOutput (g : List AnnotRecord) (nodeLine : Int) : List Msg :=
  if g = [] then []
  else
    contentMsgs
      ((lastData g ".. toggle_name:").getD "")
      (((lastData g ".. toggle_description:").map pyStrip).getD "")
      (g.any (fun a =>
        a.token = ".. toggle_use_cases:" && substrContains a.data "temporary"))
      (lastData g ".. toggle_target_removal_date:")
      (lastData g ".. toggle_default:")
      nodeLine

/-! ## Helper lemmas -/

theorem dropSpaces_append_of_space (w r : List Char)
    (h : ∀ c ∈ w, pySpace c) : dropSpaces (w ++ r) = dropSpaces r := by
  induction w with
  | nil => rfl
  | cons c cs ih =>
    simp only [List.cons_append, dropSpaces]
    rw [if_pos (h c (List.mem_cons_self c cs))]
    exact ih fun d hd => h d (List.mem_cons_of_mem c hd)

theorem dropSpaces_cons_of_not_space (c : Char) (cs : List Char)
    (h : pySpace c = false) : dropSpaces (c :: cs) = c :: cs := by
  simp [dropSpaces, h]

theorem dropSpaces_decomp (l : List Char) :
    ∃ w, (∀ c ∈ w, pySpace c) ∧ l = w ++ dropSpaces l := by
  induction l with
  | nil => exact ⟨[], by simp, rfl⟩
  | cons c cs ih =>
    by_cases h : pySpace c
    · obtain ⟨w, hw, he⟩ := ih
      refine ⟨c :: w, ?_, ?_⟩
      · intro d hd
        rcases List.mem_cons.mp hd with h1 | h1
        · exact h1 ▸ h
        · exact hw d h1
      · have : dropSpaces (c :: cs) = dropSpaces cs := by
          simp [dropSpaces, h]
        rw [this, List.cons_append]
        exact congrArg (c :: ·) he
    · refine ⟨[], by simp, ?_⟩
      rw [dropSpaces_cons_of_not_space c cs (by simpa using h)]
      simp

theorem stepAnnot_toggleName (st : GroupState) (a : AnnotRecord) :
    (stepAnnot st a).toggleName =
      if a.token = ".. toggle_name:" then a.data else st.toggleName := by
  unfold stepAnnot
  split_ifs with h1 h2 h3 h4 h5 <;> simp_all

theorem stepAnnot_toggleDescription (st : GroupState) (a : AnnotRecord) :
    (stepAnnot st a).toggleDescription =
      if a.token = ".. toggle_description:" then pyStrip a.data
      else st.toggleDescription := by
  unfold stepAnnot
  split_ifs with h1 h2 h3 h4 h5 <;> simp_all

theorem stepAnnot_targetRemovalDate (st : GroupState) (a : AnnotRecord) :
    (stepAnnot st a).targetRemovalDate =
      if a.token = ".. toggle_target_removal_date:" then some a.data
      else st.targetRemovalDate := by
  unfold stepAnnot
  split_ifs with h1 h2 h3 h4 h5 <;> simp_all

theorem stepAnnot_toggleDefault (st : GroupState) (a : AnnotRecord) :
    (stepAnnot st a).toggleDefault =
      if a.token = ".. toggle_default:" then some a.data
      else st.toggleDefault := by
  unfold stepAnnot
  split_ifs with h1 h2 h3 h4 h5 <;> simp_all

theorem stepAnnot_temporaryUseCase (st : GroupState) (a : AnnotRecord) :
    (stepAnnot st a).temporaryUseCase =
      (st.temporaryUseCase ||
        (a.token = ".. toggle_use_cases:" &&
          substrContains a.data "temporary")) := by
  unfold stepAnnot
  split_ifs with h1 h2 h3 h4 h5 <;> simp_all

theorem foldl_toggleName (g : List AnnotRecord) (st : GroupState) :
    (g.foldl stepAnnot st).toggleName =
      (lastData g ".. toggle_name:").getD st.toggleName := by
  induction g generalizing st with
  | nil => rfl
  | cons a g ih =>
    rw [List.foldl_cons, ih]
    cases h : lastData g ".. toggle_name:" with
    | some d => simp [lastData, h]
    | none =>
      simp only [lastData, h, Option.getD_none]
      rw [stepAnnot_toggleName]
      by_cases ht : a.token = ".. toggle_name:" <;> simp [ht]

theorem foldl_toggleDescription (g : List AnnotRecord) (st : GroupState) :
    (g.foldl stepAnnot st).toggleDescription =
      ((lastData g ".. toggle_description:").map pyStrip).getD
        st.toggleDescription := by
  induction g generalizing st with
  | nil => rfl
  | cons a g ih =>
    rw [List.foldl_cons, ih]
    cases h : lastData g ".. toggle_description:" with
    | some d => simp [lastData, h]
    | none =>
      simp only [lastData, h, Option.map_none', Option.getD_none]
      rw [stepAnnot_toggleDescription]
      by_cases ht : a.token = ".. toggle_description:" <;> simp [ht]

theorem foldl_targetRemovalDate (g : List AnnotRecord) (st : GroupState) :
    (g.foldl stepAnnot st).targetRemovalDate =
      ((lastData g ".. toggle_target_removal_date:").map some).getD
        st.targetRemovalDate := by
  induction g generalizing st with
  | nil => rfl
  | cons a g ih =>
    rw [List.foldl_cons, ih]
    cases h : lastData g ".. toggle_target_removal_date:" with
    | some d => simp [lastData, h]
    | none =>
      simp only [lastData, h, Option.map_none', Option.getD_none]
      rw [stepAnnot_targetRemovalDate]
      by_cases ht : a.token = ".. toggle_target_removal_date:" <;> simp [ht]

theorem foldl_toggleDefault (g : List AnnotRecord) (st : GroupState) :
    (g.foldl stepAnnot st).toggleDefault =
      ((lastData g ".. toggle_default:").map some).getD st.toggleDefault := by
  induction g generalizing st with
  | nil => rfl
  | cons a g ih =>
    rw [List.foldl_cons, ih]
    cases h : lastData g ".. toggle_default:" with
    | some d => simp [lastData, h]
    | none =>
      simp only [lastData, h, Option.map_none', Option.getD_none]
      rw [stepAnnot_toggleDefault]
      by_cases ht : a.token = ".. toggle_default:" <;> simp [ht]

theorem foldl_temporaryUseCase (g : List AnnotRecord) (st : GroupState) :
    (g.foldl stepAnnot st).temporaryUseCase =
      (st.temporaryUseCase ||
        g.any (fun a =>
          a.token = ".. toggle_use_cases:" &&
            substrContains a.data "temporary")) := by
  induction g generalizing st with
  | nil => simp
  | cons a g ih =>
    rw [List.foldl_cons, ih, stepAnnot_temporaryUseCase]
    simp [Bool.or_assoc]

theorem foldl_flagName_opt (kws : List (Option String × String))
    (a : Option String) :
    kws.foldl
        (fun acc kw => if kw.1 = some "flag_name" then some kw.2 else acc)
        a =
      match kws.foldl
          (fun acc kw => if kw.1 = some "flag_name" then some kw.2 else acc)
          none with
      | some v => some v
      | none => a := by
  induction kws generalizing a with
  | nil => rfl
  | cons kw kws ih =>
    rw [List.foldl_cons, List.foldl_cons,
      ih (if kw.1 = some "flag_name" then some kw.2 else a),
      ih (if kw.1 = some "flag_name" then some kw.2 else none)]
    cases h : kws.foldl
        (fun acc k => if k.1 = some "flag_name" then some k.2 else acc)
        none with
    | some v => simp [h]
    | none => by_cases hp : kw.1 = some "flag_name" <;> simp [h, hp]

theorem foldl_flagName_str (kws : List (Option String × String))
    (d : String) :
    kws.foldl
        (fun acc kw => if kw.1 = some "flag_name" then kw.2 else acc) d =
      (kws.foldl
          (fun acc kw => if kw.1 = some "flag_name" then some kw.2 else acc)
          none).getD d := by
  induction kws generalizing d with
  | nil => rfl
  | cons kw kws ih =>
    rw [List.foldl_cons, List.foldl_cons,
      ih (if kw.1 = some "flag_name" then kw.2 else d),
      foldl_flagName_opt kws
        (if kw.1 = some "flag_name" then some kw.2 else none)]
    cases h : kws.foldl
        (fun acc k => if k.1 = some "flag_name" then some k.2 else acc)
        none with
    | some v => simp [h]
    | none => by_cases hp : kw.1 = some "flag_name" <;> simp [h, hp]

theorem lastData_eq_none (g : List AnnotRecord) (tok : String)
    (h : ∀ a ∈ g, a.token ≠ tok) : lastData g tok = none := by
  induction g with
  | nil => rfl
  | cons a g ih =>
    have hg : lastData g tok = none :=
      ih fun b hb => h b (List.mem_cons_of_mem a hb)
    simp [lastData, hg, h a (List.mem_cons_self a g)]

/-! ## Claim theorems -/

/-- Claim C2: for every call whose callee is a simple name in the
deny-list `{flag_is_active, switch_is_active}`, exactly one illegal-usage
diagnostic is emitted — with the rendering of the first positional
argument, or `"UNKNOWN"` when there is none — regardless of any
annotation state (the check consults no annotation data at all). -/
theorem claim_C2 (node : CallNode) (fn : String)
    (hf : node.funcName = some fn) (hmem : fn ∈ illegalWaffleFunctions) :
    checkIllegalWaffleUsage node =
      [⟨MsgId.illegalWaffle, [node.args.getD 0 "UNKNOWN"], node.lineno⟩] := by
  unfold checkIllegalWaffleUsage
  rw [hf]
  dsimp only
  rw [if_pos hmem]
  cases ha : node.args with
  | nil => simp [ha]
  | cons x xs => simp [ha]

/-- Witness for claim C2 at a concrete `flag_is_active("some_flag")`
call. -/
theorem claim_C2_witness :
    (⟨some "flag_is_active", 3, ["'some_flag'"], some []⟩ :
        CallNode).funcName = some "flag_is_active" ∧
    "flag_is_active" ∈ illegalWaffleFunctions ∧
    checkIllegalWaffleUsage
        ⟨some "flag_is_active", 3, ["'some_flag'"], some []⟩ =
      [⟨MsgId.illegalWaffle, ["'some_flag'"], 3⟩] :=
  ⟨rfl, by decide, claim_C2 _ _ rfl (by decide)⟩

/-- Claim C4: out-of-range line numbers (below 1 or above the line
count) are classified as not annotated, with no error. -/
theorem claim_C4 (a : AnnotLines) (n : Int)
    (h : n < 1 ∨ (a.lineCount : Int) < n) :
    a.isLineAnnotated n = false := by
  rcases h with h | h <;> simp [AnnotLines.isLineAnnotated, h]

/-- Witness for claim C4: probing line 0 of a one-line module. -/
theorem claim_C4_witness :
    ((0 : Int) < 1 ∨
        (((AnnotLines.mk ["# .. toggle"]).lineCount : Int) < 0)) ∧
    (AnnotLines.mk ["# .. toggle"]).isLineAnnotated 0 = false :=
  ⟨Or.inl (by decide), claim_C4 ⟨["# .. toggle"]⟩ 0 (Or.inl (by decide))⟩

/-- Claim C5: for a dict literal assigned to `FEATURES`, the presence
probe runs on the line immediately preceding each key's own line, and
each unannotated entry yields exactly one missing-annotation diagnostic
carrying the key's literal value, anchored to the dictionary node's
line. -/
theorem claim_C5 (lines : AnnotLines) (node : DictNode)
    (h : node.parentTargetName = some "FEATURES") :
    checkDjangoFeatureFlagAnnotated lines node =
      (node.items.filter
          (fun key => !(lines.isLineAnnotated (key.lineno - 1)))).map
        (fun key =>
          ⟨MsgId.toggleMissingAnnot, [key.value], node.lineno⟩) := by
  unfold checkDjangoFeatureFlagAnnotated
  rw [h]
  dsimp only
  rw [if_pos rfl]
  induction node.items with
  | nil => rfl
  | cons k ks ih =>
    by_cases hk : lines.isLineAnnotated (k.lineno - 1) <;>
      simp [List.filterMap_cons, List.filter_cons, hk, ih]

/-- Witness for claim C5: a two-entry `FEATURES` dict where the first
key's preceding line is annotated and the second is not. -/
theorem claim_C5_witness :
    (⟨some "FEATURES", 3, [⟨3, "'KEY1'"⟩, ⟨5, "'KEY2'"⟩]⟩ :
        DictNode).parentTargetName = some "FEATURES" ∧
    checkDjangoFeatureFlagAnnotated ⟨["x = 1", "# .. toggle", "d"]⟩
        ⟨some "FEATURES", 3, [⟨3, "'KEY1'"⟩, ⟨5, "'KEY2'"⟩]⟩ =
      [⟨MsgId.toggleMissingAnnot, ["'KEY2'"], 3⟩] := by
  refine ⟨rfl, ?_⟩
  rw [claim_C5 ⟨["x = 1", "# .. toggle", "d"]⟩
    ⟨some "FEATURES", 3, [⟨3, "'KEY1'"⟩, ⟨5, "'KEY2'"⟩]⟩ rfl]
  decide

/-- Claim C9 (code evaluation at the failing input): a group whose
non-empty `toggle_name` record is NOT the first record produces no
incorrect-name diagnostic — indeed no diagnostic at all here — although
the checker's own message description says the name "must be present and
be the first annotation". -/
theorem claim_C9_code_eval :
    checkFeatureTogglesAnnotGroup
        [⟨".. toggle_description:", "Some description"⟩,
         ⟨".. toggle_name:", "my_flag"⟩,
         ⟨".. toggle_default:", "True"⟩] 1 = [] := by
  decide

/-- Claim C3: a line is classified as annotated iff it matches, anchored
at the start of the line, "optional whitespace, `#`, optional whitespace,
`..`, optional whitespace, the literal `toggle`"; in particular
`"# .. toggle_name: FOO"`, `"#..toggle"` and `"   # .. toggle"` are
annotated while `"x = 1  # .. toggle"` is not. -/
theorem claim_C3 :
    (∀ s : String, annotRegexMatch s = true ↔ specAnnotPattern s) ∧
    annotRegexMatch "# .. toggle_name: FOO" = true ∧
    annotRegexMatch "#..toggle" = true ∧
    annotRegexMatch "   # .. toggle" = true ∧
    annotRegexMatch "x = 1  # .. toggle" = false := by
  refine ⟨?_, by decide, by decide, by decide, by decide⟩
  intro s
  constructor
  · intro h
    unfold annotRegexMatch at h
    obtain ⟨w1, hw1, he1⟩ := dropSpaces_decomp s.data
    cases hd : dropSpaces s.data with
    | nil => rw [hd] at h; simp [matchTail1] at h
    | cons c rest =>
      rw [hd] at h
      unfold matchTail1 at h
      rw [Bool.and_eq_true] at h
      obtain ⟨hcb, h2⟩ := h
      have hc : c = '#' := by simpa using hcb
      obtain ⟨w2, hw2, he2⟩ := dropSpaces_decomp rest
      cases hd2 : dropSpaces rest with
      | nil => rw [hd2] at h2; simp [matchTail2] at h2
      | cons c1 t1 =>
        cases t1 with
        | nil => rw [hd2] at h2; simp [matchTail2] at h2
        | cons c2 rest2 =>
          rw [hd2] at h2
          unfold matchTail2 at h2
          rw [Bool.and_eq_true, Bool.and_eq_true] at h2
          obtain ⟨⟨hc1b, hc2b⟩, hpre⟩ := h2
          have hc1 : c1 = '.' := by simpa using hc1b
          have hc2 : c2 = '.' := by simpa using hc2b
          obtain ⟨w3, hw3, he3⟩ := dropSpaces_decomp rest2
          obtain ⟨tail, htail⟩ := List.isPrefixOf_iff_prefix.mp hpre
          refine ⟨w1, w2, w3, tail, hw1, hw2, hw3, ?_⟩
          calc s.data = w1 ++ dropSpaces s.data := he1
            _ = w1 ++ ('#' :: rest) := by rw [hd, hc]
            _ = w1 ++ ('#' :: (w2 ++ dropSpaces rest)) := by rw [← he2]
            _ = w1 ++ ('#' :: (w2 ++ ('.' :: '.' :: rest2))) := by
                rw [hd2, hc1, hc2]
            _ = w1 ++
                ('#' :: (w2 ++ ('.' :: '.' :: (w3 ++ dropSpaces rest2)))) := by
                rw [← he3]
            _ = w1 ++ ('#' :: (w2 ++
                ('.' :: '.' :: (w3 ++ ("toggle".data ++ tail))))) := by
                rw [← htail]
  · rintro ⟨w1, w2, w3, rest, hw1, hw2, hw3, hs⟩
    unfold annotRegexMatch
    rw [hs, dropSpaces_append_of_space w1 _ hw1,
      dropSpaces_cons_of_not_space '#' _ (by decide)]
    unfold matchTail1
    dsimp only
    rw [dropSpaces_append_of_space w2 _ hw2,
      dropSpaces_cons_of_not_space '.' _ (by decide)]
    unfold matchTail2
    dsimp only
    rw [dropSpaces_append_of_space w3 _ hw3]
    have htog : dropSpaces ("toggle".data ++ rest) = "toggle".data ++ rest := by
      have h6 : "toggle".data = 't' :: "oggle".data := by decide
      rw [h6, List.cons_append]
      exact dropSpaces_cons_of_not_space 't' _ (by decide)
    rw [htog]
    simp [List.isPrefixOf_iff_prefix.mpr (List.prefix_append _ _)]

/-- Witness for claim C3: the iff instantiated at `"#..toggle"`. -/
theorem claim_C3_witness :
    annotRegexMatch "#..toggle" = true ∧ specAnnotPattern "#..toggle" :=
  ⟨by decide, (claim_C3.1 "#..toggle").mp (by decide)⟩

/-- Claim C6: for a non-empty group, the non-boolean-default diagnostic
fires exactly when the (last-written) raw `toggle_default` value is not
literally `"True"` or `"False"` — absence triggers it, and so does the
lowercase `"true"`, while `"True"` does not. -/
theorem claim_C6 (g : List AnnotRecord) (nodeLine : Int) (hne : g ≠ []) :
    ((checkFeatureTogglesAnnotGroup g nodeLine).filter
        (fun m => m.id = MsgId.nonBooleanDefault)) =
      (if lastData g ".. toggle_default:" = some "True" ∨
          lastData g ".. toggle_default:" = some "False" then []
       else [⟨MsgId.nonBooleanDefault,
          [(lastData g ".. toggle_name:").getD ""], nodeLine⟩]) := by
  unfold checkFeatureTogglesAnnotGroup
  rw [if_neg hne]
  have hdef : (g.foldl stepAnnot initGroupState).toggleDefault =
      lastData g ".. toggle_default:" := by
    rw [foldl_toggleDefault]
    cases lastData g ".. toggle_default:" <;> rfl
  have hname : (g.foldl stepAnnot initGroupState).toggleName =
      (lastData g ".. toggle_name:").getD "" := by
    rw [foldl_toggleName]
    rfl
  simp only [List.filter_append, hdef, hname]
  split_ifs <;> simp_all

/-- Witness for claim C6: a group with lowercase `toggle_default: true`
yields the non-boolean-default diagnostic. -/
theorem claim_C6_witness :
    ([⟨".. toggle_name:", "x"⟩, ⟨".. toggle_description:", "d"⟩,
      ⟨".. toggle_default:", "true"⟩] : List AnnotRecord) ≠ [] ∧
    ((checkFeatureTogglesAnnotGroup
        [⟨".. toggle_name:", "x"⟩, ⟨".. toggle_description:", "d"⟩,
         ⟨".. toggle_default:", "true"⟩] 4).filter
        (fun m => m.id = MsgId.nonBooleanDefault)) =
      [⟨MsgId.nonBooleanDefault, ["x"], 4⟩] := by
  refine ⟨by decide, ?_⟩
  rw [claim_C6 _ 4 (by decide)]
  decide

/-- Claim C7: a group with some `toggle_use_cases` record containing the
substring `"temporary"` and no `toggle_target_removal_date` record gets a
missing-target-removal-date diagnostic carrying the toggle name; the
spec's concrete example produces exactly that one diagnostic. -/
theorem claim_C7 (g : List AnnotRecord) (nodeLine : Int)
    (htemp : ∃ a ∈ g, a.token = ".. toggle_use_cases:" ∧
      substrContains a.data "temporary" = true)
    (hnorem : ∀ a ∈ g, a.token ≠ ".. toggle_target_removal_date:") :
    ((⟨MsgId.missingTargetRemovalDate,
        [(lastData g ".. toggle_name:").getD ""], nodeLine⟩ : Msg) ∈
      checkFeatureTogglesAnnotGroup g nodeLine) ∧
    checkFeatureTogglesAnnotGroup
        [⟨".. toggle_name:", "my_flag"⟩,
         ⟨".. toggle_description:", "My description"⟩,
         ⟨".. toggle_use_cases:", "temporary, release"⟩,
         ⟨".. toggle_default:", "True"⟩] 7 =
      [⟨MsgId.missingTargetRemovalDate, ["my_flag"], 7⟩] := by
  refine ⟨?_, by decide⟩
  have hne : g ≠ [] := by
    obtain ⟨a, ha, _⟩ := htemp
    intro h
    subst h
    exact absurd ha (List.not_mem_nil a)
  unfold checkFeatureTogglesAnnotGroup
  rw [if_neg hne]
  have hrem : (g.foldl stepAnnot initGroupState).targetRemovalDate =
      none := by
    rw [foldl_targetRemovalDate, lastData_eq_none g _ hnorem]
    rfl
  have htmp : (g.foldl stepAnnot initGroupState).temporaryUseCase =
      true := by
    rw [foldl_temporaryUseCase]
    obtain ⟨a, ha, h1, h2⟩ := htemp
    have hany : g.any (fun a =>
        a.token = ".. toggle_use_cases:" &&
          substrContains a.data "temporary") = true := by
      rw [List.any_eq_true]
      exact ⟨a, ha, by simp [h1, h2]⟩
    simp [hany, initGroupState]
  have hname : (g.foldl stepAnnot initGroupState).toggleName =
      (lastData g ".. toggle_name:").getD "" := by
    rw [foldl_toggleName]
    rfl
  simp [htmp, hrem, hname, optStrFalsy, List.mem_append]

/-- Witness for claim C7 at a one-record concrete group. -/
theorem claim_C7_witness :
    (⟨MsgId.missingTargetRemovalDate, [""], 2⟩ : Msg) ∈
      checkFeatureTogglesAnnotGroup
        [⟨".. toggle_use_cases:", "temporary"⟩] 2 :=
  (claim_C7 [⟨".. toggle_use_cases:", "temporary"⟩] 2
    ⟨⟨".. toggle_use_cases:", "temporary"⟩, by decide, rfl, by decide⟩
    (by decide)).1

/-- Claim C8 counterexample: with two `toggle_use_cases` records —
`"temporary"` then `"release"` — the code still reports a missing target
removal date (the temporary flag is sticky), while a strict
last-write-wins reading of the group would not. -/
theorem claim_C8_cex :
    checkFeatureTogglesAnnotGroup
        [⟨".. toggle_name:", "x"⟩, ⟨".. toggle_description:", "d"⟩,
         ⟨".. toggle_default:", "True"⟩,
         ⟨".. toggle_use_cases:", "temporary"⟩,
         ⟨".. toggle_use_cases:", "release"⟩] 0 ≠
      lwwOutput
        [⟨".. toggle_name:", "x"⟩, ⟨".. toggle_description:", "d"⟩,
         ⟨".. toggle_default:", "True"⟩,
         ⟨".. toggle_use_cases:", "temporary"⟩,
         ⟨".. toggle_use_cases:", "release"⟩] 0 := by
  decide

/-- Claim C8 (amended): the content rules read the LAST occurrence of
`toggle_name`, `toggle_description`, `toggle_target_removal_date` and
`toggle_default`, but the temporary-use-case condition holds as soon as
ANY `toggle_use_cases` occurrence contains `"temporary"`. -/
theorem claim_C8_amended (g : List AnnotRecord) (nodeLine : Int) :
    checkFeatureTogglesAnnotGroup g nodeLine = amendedOutput g nodeLine := by
  by_cases hne : g = []
  · subst hne
    rfl
  · simp only [checkFeatureTogglesAnnotGroup, amendedOutput, contentMsgs,
      if_neg hne]
    rw [foldl_toggleName, foldl_toggleDescription, foldl_targetRemovalDate,
      foldl_toggleDefault, foldl_temporaryUseCase]
    cases lastData g ".. toggle_target_removal_date:" <;>
      cases lastData g ".. toggle_default:" <;>
      simp [initGroupState]

/-- Claim C10: the content check emits nothing for an empty annotation
group, even though name, description and default are all absent. -/
theorem claim_C10 (nodeLine : Int) :
    checkFeatureTogglesAnnotGroup [] nodeLine = [] := by
  simp [checkFeatureTogglesAnnotGroup]

/-- Claim C1 counterexample: for an unannotated `WaffleFlag` call with a
keyword `flag_name="UNKNOWN"` and two positional arguments, the code
reports the second positional argument's rendering, not the keyword's
value as the claim's priority order requires. -/
theorem claim_C1_cex :
    checkWaffleClassAnnotated ⟨["x = 1", ""]⟩
        ⟨some "WaffleFlag", 2, ["namespace", "'my_flag'"],
          some [(some "flag_name", "UNKNOWN")]⟩ ≠
      [⟨MsgId.toggleMissingAnnot,
          [specC1Name
            ⟨some "WaffleFlag", 2, ["namespace", "'my_flag'"],
              some [(some "flag_name", "UNKNOWN")]⟩], 2⟩] := by
  decide

/-- Claim C1 (amended): for a waffle-class call site (simple callee name
starting with a capital and ending in a waffle class name), an annotated
preceding line yields zero diagnostics and an unannotated one yields
exactly one missing-annotation diagnostic whose name is the `flag_name`
keyword's value when that value differs from the sentinel `"UNKNOWN"`,
else the second positional argument's rendering when at least two
positional arguments exist, else `"UNKNOWN"`. -/
theorem claim_C1_amended (lines : AnnotLines) (node : CallNode)
    (fn : String) (hf : node.funcName = some fn)
    (hcap : startsWithCapital fn = true)
    (hsuf : endsWithAny fn waffleToggleClasses = true) :
    (lines.isLineAnnotated (node.lineno - 1) = true →
      checkWaffleClassAnnotated lines node = []) ∧
    (lines.isLineAnnotated (node.lineno - 1) = false →
      checkWaffleClassAnnotated lines node =
        [⟨MsgId.toggleMissingAnnot, [amendedC1Name node],
          node.lineno⟩]) := by
  unfold checkWaffleClassAnnotated
  rw [hf]
  dsimp only
  rw [hcap, hsuf]
  constructor
  · intro h
    rw [h]
    rfl
  · intro h
    rw [h]
    have hmain : amendedC1Name node =
        (let n1 :=
          match node.keywords with
          | none => "UNKNOWN"
          | some kws =>
            kws.foldl
              (fun acc kw => if kw.1 = some "flag_name" then kw.2 else acc)
              "UNKNOWN"
        if n1 = "UNKNOWN" then
          if 2 ≤ node.args.length then node.args.getD 1 "UNKNOWN" else n1
        else n1) := by
      unfold amendedC1Name flagNameKw
      cases hk : node.keywords with
      | none => simp
      | some kws =>
        dsimp only
        rw [foldl_flagName_str]
        cases hlast : kws.foldl
            (fun acc kw =>
              if kw.1 = some "flag_name" then some kw.2 else acc)
            none with
        | none => simp
        | some v =>
          dsimp only [Option.getD_some]
          by_cases hv : v = "UNKNOWN"
          · subst hv
            by_cases hlen : 2 ≤ node.args.length <;> simp [hlen]
          · simp [hv]
    rw [hmain]
    rfl

/-- Witness for claim C1 (amended): an unannotated `WaffleFlag` call with
no `flag_name` keyword reports the second positional argument. -/
theorem claim_C1_witness :
    (⟨some "WaffleFlag", 2, ["namespace", "'my_flag'"], some []⟩ :
        CallNode).funcName = some "WaffleFlag" ∧
    startsWithCapital "WaffleFlag" = true ∧
    endsWithAny "WaffleFlag" waffleToggleClasses = true ∧
    (⟨["x = 1", ""]⟩ : AnnotLines).isLineAnnotated 1 = false ∧
    checkWaffleClassAnnotated ⟨["x = 1", ""]⟩
        ⟨some "WaffleFlag", 2, ["namespace", "'my_flag'"], some []⟩ =
      [⟨MsgId.toggleMissingAnnot, ["'my_flag'"], 2⟩] :=
  ⟨rfl, by decide, by decide, by decide,
    (claim_C1_amended ⟨["x = 1", ""]⟩
        ⟨some "WaffleFlag", 2, ["namespace", "'my_flag'"], some []⟩
        "WaffleFlag" rfl (by decide) (by decide)).2 (by decide)⟩

end EdxLint
